import Mathlib

/-!
Verification development for the ScrapeMaster repository
(`app/cache_manager.py`, `app/scraper.py`, `app/main.py`).

Python data structures are shallowly embedded: dictionaries become
association lists, wall-clock time becomes an explicit `Nat` parameter,
floats become exact rationals (`ℚ`), and the external collaborators
(aiohttp, Splash, Selenium, BeautifulSoup, urljoin) are abstracted as
function parameters, exactly at the interface the Python code uses them.
-/

namespace ScrapeMaster

/-- Model of `Cache` from `app/cache_manager.py`: a dictionary from string
keys to `(value, expiry_time)` pairs together with the per-instance
`expiry` (ttl in seconds).  The current wall-clock time (`time.time()`)
is passed explicitly to each operation. -/
structure Cache (α : Type) where
  entries : List (String × α × Nat)
  expiry : Nat

/-- Dictionary lookup (`self.cache[key]` / `key in self.cache`): the first
entry holding the key. -/
def Cache.lookup {α : Type} (c : Cache α) (k : String) : Option (α × Nat) :=
  (c.entries.find? (fun e => e.1 == k)).map (fun e => e.2)

/-- Dictionary deletion `del self.cache[key]`. -/
def Cache.erase {α : Type} (c : Cache α) (k : String) : Cache α :=
  { c with entries := c.entries.filter (fun e => e.1 != k) }

/-- Model of `Cache.set`: store the value along with expiry time `now + self.expiry`,
overwriting any prior entry for the key. -/
def Cache.set {α : Type} (c : Cache α) (k : String) (v : α) (now : Nat) : Cache α :=
  { c with entries := (k, v, now + c.expiry) :: c.entries.filter (fun e => e.1 != k) }

/-- Model of `Cache.get`: return the stored value if `time.time() < expiry_time`;
otherwise delete the (expired) entry and miss.  The possibly-updated cache
is returned alongside the result. -/
def Cache.get {α : Type} (c : Cache α) (k : String) (now : Nat) : Option α × Cache α :=
  match c.lookup k with
  | some (v, exp) => if now < exp then (some v, c) else (none, c.erase k)
  | none => (none, c)

/-- Model of `Cache.clear_expired`: remove every entry with `current_time >= expiry_time`. -/
def Cache.clear_expired {α : Type} (c : Cache α) (now : Nat) : Cache α :=
  { c with entries := c.entries.filter (fun e => decide (now < e.2.2)) }

theorem Cache.lookup_set_self {α : Type} (c : Cache α) (k : String) (v : α) (t : Nat) :
    (c.set k v t).lookup k = some (v, t + c.expiry) := by
  simp [Cache.set, Cache.lookup]

theorem Cache.lookup_erase_self {α : Type} (c : Cache α) (k : String) :
    (c.erase k).lookup k = none := by
  have hfind : (c.entries.filter (fun e => e.1 != k)).find? (fun e => e.1 == k) = none := by
    rw [List.find?_eq_none]
    intro e he
    have := List.of_mem_filter he
    simpa using this
  simp [Cache.erase, Cache.lookup, hfind]

/-- If `get` misses, the returned cache has no entry for the key (either
there never was one, or the expired one was just deleted). -/
theorem Cache.lookup_after_miss {α : Type} (c : Cache α) (k : String) (now : Nat)
    (h : (c.get k now).1 = none) : ((c.get k now).2).lookup k = none := by
  cases hl : c.lookup k with
  | none => simp [Cache.get, hl]
  | some ve =>
    obtain ⟨v, exp⟩ := ve
    by_cases hlt : now < exp
    · simp [Cache.get, hl, hlt] at h
    · simpa [Cache.get, hl, hlt] using Cache.lookup_erase_self c k

/-- Claim C3: `set(k, v)` followed immediately by `get(k)` returns `v`
(for a cache with a positive ttl, such as the 60s one the scraper builds);
once `now` is at or past an entry's stored expiry time, `get` deletes the
entry and misses; in general an entry's value is visible to `get` iff
`now < expiresAt`. -/
theorem cache_set_get_visibility {α : Type} (c : Cache α) (k : String) (v : α)
    (t now : Nat) (hpos : 0 < c.expiry) :
    ((c.set k v t).get k t).1 = some v ∧
    (∀ (w : α) (exp : Nat), c.lookup k = some (w, exp) → exp ≤ now →
      (c.get k now).1 = none ∧ ((c.get k now).2).lookup k = none) ∧
    (∀ (w : α), (c.get k now).1 = some w ↔ ∃ exp, c.lookup k = some (w, exp) ∧ now < exp) := by
  refine ⟨?_, ?_, ?_⟩
  · unfold Cache.get
    rw [Cache.lookup_set_self]
    have : t < t + c.expiry := Nat.lt_add_of_pos_right hpos
    simp [this]
  · intro w exp hl hle
    have hnlt : ¬ now < exp := Nat.not_lt.mpr hle
    constructor
    · unfold Cache.get
      rw [hl]
      simp [hnlt]
    · apply Cache.lookup_after_miss
      unfold Cache.get
      rw [hl]
      simp [hnlt]
  · intro w
    cases hl : c.lookup k with
    | none => simp [Cache.get, hl]
    | some ve =>
      obtain ⟨v', exp⟩ := ve
      by_cases hlt : now < exp
      · simp only [Cache.get, hl, hlt, if_true]
        constructor
        · intro h
          have hw : v' = w := by simpa using h
          exact ⟨exp, by rw [hw], hlt⟩
        · rintro ⟨e2, he2, hlt2⟩
          have : v' = w ∧ exp = e2 := by simpa using he2
          simp [this.1]
      · simp only [Cache.get, hl, hlt, if_false]
        constructor
        · intro h
          exact absurd h (by simp)
        · rintro ⟨e2, he2, hlt2⟩
          have hv : v' = w ∧ exp = e2 := by simpa using he2
          exact absurd (hv.2 ▸ hlt2) hlt

/-- Witness for C3 on a concrete cache: ttl 60, an immediate round-trip at
time 0, and an expired entry (expiry time 3) read at time 10. -/
theorem cache_set_get_visibility_witness :
    ((({ entries := [], expiry := 60 } : Cache Nat).set "k" 7 0).get "k" 0).1 = some 7 ∧
    (({ entries := [("k", 5, 3)], expiry := 60 } : Cache Nat).get "k" 10).1 = none := by
  constructor
  · exact (cache_set_get_visibility { entries := [], expiry := 60 } "k" 7 0 0 (by decide)).1
  · exact ((cache_set_get_visibility { entries := [("k", 5, 3)], expiry := 60 } "k" 5 0 10
      (by decide)).2.1 5 3 (by decide) (by decide)).1

/-! ## difflib.SequenceMatcher, as used by `compute_similarity`

`compute_similarity(text1, text2)` in `app/scraper.py` is
`SequenceMatcher(None, text1, text2).ratio()`.  The stdlib algorithm is
embedded below: `find_longest_match` picks the longest matching block,
ties broken by the earliest start in the first string and then in the
second; `get_matching_blocks` recurses on both sides of that block;
`ratio` is `2*M/T` with `M` the total matched characters and `T` the sum
of lengths, and `1.0` when both strings are empty.  Floats are modeled as
exact rationals.  The `autojunk` heuristic (which only fires when the
second string has length ≥ 200) is not modeled: the embedding is exact
for second arguments shorter than 200 characters. -/

/-- Length of the common run at the heads of two character lists. -/
def matchRun : List Char → List Char → Nat
  | a :: as, b :: bs => if a = b then matchRun as bs + 1 else 0
  | _, _ => 0

/-- All `(i, j)` index pairs of the search window, in the scan order of
`find_longest_match` (`i` ascending, then `j` ascending). -/
def windowPairs (alo ahi blo bhi : Nat) : List (Nat × Nat) :=
  (List.range' alo (ahi - alo)).flatMap
    (fun i => (List.range' blo (bhi - blo)).map (fun j => (i, j)))

/-- Length of the matching block starting at `(i, j)`, clipped to the window. -/
def blockLen (a b : List Char) (ahi bhi i j : Nat) : Nat :=
  min (matchRun (a.drop i) (b.drop j)) (min (ahi - i) (bhi - j))

/-- One update step of the `find_longest_match` scan: strict improvement
only, so the earliest maximal block is kept. -/
def betterOf (a b : List Char) (ahi bhi : Nat) (best : Nat × Nat × Nat)
    (p : Nat × Nat) : Nat × Nat × Nat :=
  let k := blockLen a b ahi bhi p.1 p.2
  if best.2.2 < k then (p.1, p.2, k) else best

/-- Model of `SequenceMatcher.find_longest_match` on the window
`a[alo:ahi]`, `b[blo:bhi]` (no junk, no autojunk): the longest matching
block, ties broken towards the smallest `i`, then the smallest `j`. -/
def findLongestMatch (a b : List Char) (alo ahi blo bhi : Nat) : Nat × Nat × Nat :=
  (windowPairs alo ahi blo bhi).foldl (betterOf a b ahi bhi) (alo, blo, 0)

/-- Total size of `get_matching_blocks`: recursively split around the
longest match.  Structured with explicit fuel; `smMatches` supplies
enough fuel for the recursion to run to completion. -/
def matchTotal (a b : List Char) : Nat → Nat → Nat → Nat → Nat → Nat
  | 0, _, _, _, _ => 0
  | fuel + 1, alo, ahi, blo, bhi =>
    if (findLongestMatch a b alo ahi blo bhi).2.2 = 0 then 0
    else
      matchTotal a b fuel alo (findLongestMatch a b alo ahi blo bhi).1 blo
          (findLongestMatch a b alo ahi blo bhi).2.1
        + (findLongestMatch a b alo ahi blo bhi).2.2
        + matchTotal a b fuel
            ((findLongestMatch a b alo ahi blo bhi).1
              + (findLongestMatch a b alo ahi blo bhi).2.2) ahi
            ((findLongestMatch a b alo ahi blo bhi).2.1
              + (findLongestMatch a b alo ahi blo bhi).2.2) bhi

/-- Total number of matched characters over the whole strings. -/
def smMatches (a b : List Char) : Nat :=
  matchTotal a b (a.length + b.length + 1) 0 a.length 0 b.length

/-- Model of `SequenceMatcher.ratio`: `2*M/T`, and `1.0` when `T = 0`. -/
def smScore (a b : List Char) : ℚ :=
  if a.length + b.length = 0 then 1
  else (2 * (smMatches a b : ℚ)) / ((a.length : ℚ) + (b.length : ℚ))

/-- Model of `compute_similarity` from `app/scraper.py`. -/
def compute_similarity (text1 text2 : String) : ℚ :=
  smScore text1.data text2.data

theorem matchRun_self (l : List Char) : matchRun l l = l.length := by
  induction l with
  | nil => rfl
  | cons c cs ih => simp [matchRun, ih]

theorem mem_windowPairs {alo ahi blo bhi : Nat} {p : Nat × Nat}
    (h : p ∈ windowPairs alo ahi blo bhi) :
    alo ≤ p.1 ∧ p.1 < ahi ∧ blo ≤ p.2 ∧ p.2 < bhi := by
  simp only [windowPairs, List.mem_flatMap, List.mem_map] at h
  obtain ⟨i, hi, j, hj, rfl⟩ := h
  rw [List.mem_range'_1] at hi hj
  exact ⟨hi.1, by omega, hj.1, by omega⟩

/-- The bounds invariant carried through the `find_longest_match` scan. -/
def blockOK (alo ahi blo bhi : Nat) (t : Nat × Nat × Nat) : Prop :=
  t.2.2 ≠ 0 → alo ≤ t.1 ∧ t.1 + t.2.2 ≤ ahi ∧ blo ≤ t.2.1 ∧ t.2.1 + t.2.2 ≤ bhi

theorem findLongestMatch_bounds (a b : List Char) (alo ahi blo bhi : Nat) :
    blockOK alo ahi blo bhi (findLongestMatch a b alo ahi blo bhi) := by
  unfold findLongestMatch
  have main : ∀ (l : List (Nat × Nat)) (acc : Nat × Nat × Nat),
      (∀ p ∈ l, alo ≤ p.1 ∧ p.1 < ahi ∧ blo ≤ p.2 ∧ p.2 < bhi) →
      blockOK alo ahi blo bhi acc →
      blockOK alo ahi blo bhi (l.foldl (betterOf a b ahi bhi) acc) := by
    intro l
    induction l with
    | nil => intro acc _ hacc; exact hacc
    | cons p ps ih =>
      intro acc hmem hacc
      refine ih _ (fun q hq => hmem q (List.mem_cons_of_mem _ hq)) ?_
      have hp := hmem p (List.mem_cons_self _ _)
      unfold betterOf
      by_cases hlt : acc.2.2 < blockLen a b ahi bhi p.1 p.2
      · simp only [hlt, if_true]
        intro _
        have hk1 : blockLen a b ahi bhi p.1 p.2 ≤ ahi - p.1 := by
          unfold blockLen; omega
        have hk2 : blockLen a b ahi bhi p.1 p.2 ≤ bhi - p.2 := by
          unfold blockLen; omega
        show alo ≤ p.1 ∧ p.1 + blockLen a b ahi bhi p.1 p.2 ≤ ahi ∧
          blo ≤ p.2 ∧ p.2 + blockLen a b ahi bhi p.1 p.2 ≤ bhi
        have := hp.1
        have := hp.2.1
        have := hp.2.2.1
        have := hp.2.2.2
        refine ⟨by omega, by omega, by omega, by omega⟩
      · simpa [hlt] using hacc
  exact main _ _ (fun p hp => mem_windowPairs hp) (fun h => absurd rfl h)

theorem matchTotal_le_left (a b : List Char) :
    ∀ (fuel alo ahi blo bhi : Nat), matchTotal a b fuel alo ahi blo bhi ≤ ahi - alo := by
  intro fuel
  induction fuel with
  | zero => intro alo ahi blo bhi; simp [matchTotal]
  | succ n ih =>
    intro alo ahi blo bhi
    unfold matchTotal
    by_cases hk : (findLongestMatch a b alo ahi blo bhi).2.2 = 0
    · simp [hk]
    · simp only [hk, if_false]
      have hb := findLongestMatch_bounds a b alo ahi blo bhi hk
      have h1 := ih alo (findLongestMatch a b alo ahi blo bhi).1 blo
        (findLongestMatch a b alo ahi blo bhi).2.1
      have h2 := ih ((findLongestMatch a b alo ahi blo bhi).1 +
          (findLongestMatch a b alo ahi blo bhi).2.2) ahi
        ((findLongestMatch a b alo ahi blo bhi).2.1 +
          (findLongestMatch a b alo ahi blo bhi).2.2) bhi
      omega

theorem matchTotal_le_right (a b : List Char) :
    ∀ (fuel alo ahi blo bhi : Nat), matchTotal a b fuel alo ahi blo bhi ≤ bhi - blo := by
  intro fuel
  induction fuel with
  | zero => intro alo ahi blo bhi; simp [matchTotal]
  | succ n ih =>
    intro alo ahi blo bhi
    unfold matchTotal
    by_cases hk : (findLongestMatch a b alo ahi blo bhi).2.2 = 0
    · simp [hk]
    · simp only [hk, if_false]
      have hb := findLongestMatch_bounds a b alo ahi blo bhi hk
      have h1 := ih alo (findLongestMatch a b alo ahi blo bhi).1 blo
        (findLongestMatch a b alo ahi blo bhi).2.1
      have h2 := ih ((findLongestMatch a b alo ahi blo bhi).1 +
          (findLongestMatch a b alo ahi blo bhi).2.2) ahi
        ((findLongestMatch a b alo ahi blo bhi).2.1 +
          (findLongestMatch a b alo ahi blo bhi).2.2) bhi
      omega

theorem foldl_fixed {β γ : Type} (f : β → γ → β) (acc : β) :
    ∀ (l : List γ), (∀ x ∈ l, f acc x = acc) → l.foldl f acc = acc := by
  intro l
  induction l with
  | nil => intro _; rfl
  | cons x xs ih =>
    intro h
    rw [List.foldl_cons, h x (List.mem_cons_self _ _)]
    exact ih (fun y hy => h y (List.mem_cons_of_mem _ hy))

theorem blockLen_le_ahi (a b : List Char) (ahi bhi i j : Nat) :
    blockLen a b ahi bhi i j ≤ ahi := by
  unfold blockLen
  omega

theorem windowPairs_cons (m : Nat) :
    windowPairs 0 (m + 1) 0 (m + 1)
      = (0, 0) :: ((List.range' 1 m).map (fun j => ((0 : Nat), j))
          ++ (List.range' 1 m).flatMap
              (fun i => (List.range' 0 (m + 1)).map (fun j => (i, j)))) := by
  unfold windowPairs
  simp only [Nat.sub_zero]
  rfl

theorem findLongestMatch_self (a : List Char) (h : a ≠ []) :
    findLongestMatch a a 0 a.length 0 a.length = (0, 0, a.length) := by
  obtain ⟨m, hm⟩ : ∃ m, a.length = m + 1 := ⟨a.length - 1, by
    cases a with
    | nil => exact absurd rfl h
    | cons c cs => simp⟩
  unfold findLongestMatch
  rw [hm, windowPairs_cons, List.foldl_cons]
  have hfirst : betterOf a a (m + 1) (m + 1) (0, 0, 0) (0, 0) = (0, 0, m + 1) := by
    unfold betterOf blockLen
    simp [matchRun_self, hm]
  rw [hfirst]
  apply foldl_fixed
  intro p _
  have hle := blockLen_le_ahi a a (m + 1) (m + 1) p.1 p.2
  unfold betterOf
  rw [if_neg (show ¬ ((0, 0, m + 1) : Nat × Nat × Nat).2.2
    < blockLen a a (m + 1) (m + 1) p.1 p.2 by simp; omega)]

theorem matchTotal_self (a : List Char) (hne : a ≠ []) (fuel : Nat) :
    matchTotal a a (fuel + 1) 0 a.length 0 a.length = a.length := by
  have hflm := findLongestMatch_self a hne
  have hkne : (findLongestMatch a a 0 a.length 0 a.length).2.2 ≠ 0 := by
    rw [hflm]
    simpa using fun hc => hne (List.eq_nil_of_length_eq_zero hc)
  have h1 : matchTotal a a fuel 0 0 0 0 = 0 :=
    Nat.le_zero.mp (by simpa using matchTotal_le_left a a fuel 0 0 0 0)
  have h2 : matchTotal a a fuel (0 + a.length) a.length (0 + a.length) a.length = 0 :=
    Nat.le_zero.mp (by simpa using
      matchTotal_le_left a a fuel (0 + a.length) a.length (0 + a.length) a.length)
  unfold matchTotal
  rw [if_neg hkne, hflm]
  show matchTotal a a fuel 0 0 0 0 + a.length
      + matchTotal a a fuel (0 + a.length) a.length (0 + a.length) a.length = a.length
  omega

theorem smMatches_self (a : List Char) : smMatches a a = a.length := by
  cases ha : a with
  | nil => rfl
  | cons c cs =>
    rw [← ha]
    have hne : a ≠ [] := by rw [ha]; simp
    exact matchTotal_self a hne (a.length + a.length)

theorem smMatches_nil_left (t : List Char) : smMatches [] t = 0 := by
  unfold smMatches matchTotal
  simp [findLongestMatch, windowPairs]

/-- Claim C4 (amended): `compute_similarity` always returns a value in
`[0, 1]`; it returns `0.0` whenever the query is empty and the text is
non-empty (for two empty strings it returns `1.0`, not `0.0`); it returns
`1.0` when both arguments are the same string (stated here for strings
under difflib's 200-character autojunk threshold, below which the
embedding is exact); it is NOT symmetric in its two arguments. -/
theorem similarity_bounds_and_identity (s t : String) :
    0 ≤ compute_similarity s t ∧ compute_similarity s t ≤ 1 ∧
    (s = "" → t ≠ "" → compute_similarity s t = 0) ∧
    (s = t → t.length < 200 → compute_similarity s t = 1) := by
  refine ⟨?_, ?_, ?_, ?_⟩
  · unfold compute_similarity smScore
    by_cases h : s.data.length + t.data.length = 0
    · rw [if_pos h]
      norm_num
    · rw [if_neg h]
      positivity
  · unfold compute_similarity smScore
    by_cases h : s.data.length + t.data.length = 0
    · rw [if_pos h]
    · rw [if_neg h]
      have hpos : (0 : ℚ) < (s.data.length : ℚ) + (t.data.length : ℚ) := by
        have hn : 0 < s.data.length + t.data.length := Nat.pos_of_ne_zero h
        exact_mod_cast hn
      rw [div_le_one hpos]
      have h1 : smMatches s.data t.data ≤ s.data.length := by
        simpa using matchTotal_le_left s.data t.data
          (s.data.length + t.data.length + 1) 0 s.data.length 0 t.data.length
      have h2 : smMatches s.data t.data ≤ t.data.length := by
        simpa using matchTotal_le_right s.data t.data
          (s.data.length + t.data.length + 1) 0 s.data.length 0 t.data.length
      have hnat : 2 * smMatches s.data t.data ≤ s.data.length + t.data.length := by omega
      have hq : ((2 * smMatches s.data t.data : Nat) : ℚ)
          ≤ ((s.data.length + t.data.length : Nat) : ℚ) := by
        exact_mod_cast hnat
      push_cast at hq
      linarith
  · rintro rfl hne
    have hd : (("" : String)).data = [] := rfl
    unfold compute_similarity smScore
    rw [hd]
    have hlen : t.data ≠ [] := fun hc => hne (by
      apply String.ext
      rw [hc])
    have hlen' : ([] : List Char).length + t.data.length ≠ 0 := by
      simpa using fun hc => hlen (List.eq_nil_of_length_eq_zero hc)
    rw [if_neg hlen', smMatches_nil_left]
    norm_num
  · rintro rfl _
    unfold compute_similarity smScore
    by_cases h : s.data.length + s.data.length = 0
    · rw [if_pos h]
    · rw [if_neg h, smMatches_self]
      have hl : ((s.data.length : ℚ)) ≠ 0 := by
        have hn : s.data.length ≠ 0 := by omega
        exact_mod_cast hn
      rw [show ((s.data.length : ℚ) + (s.data.length : ℚ))
        = 2 * (s.data.length : ℚ) by ring]
      exact div_self (mul_ne_zero two_ne_zero hl)

set_option maxRecDepth 8000 in
/-- Claim C4 counterexample: `compute_similarity("", "")` is `1.0`, not
`0.0`; and the score is not symmetric — `difflib`'s longest-match tie
break (earliest block in the FIRST string wins) makes
`compute_similarity "pq1rs" "rs2pq3rs" = 8/13` while the swapped call
gives `4/13`. -/
theorem similarity_claim_cex :
    compute_similarity "" "" ≠ 0 ∧
    compute_similarity "pq1rs" "rs2pq3rs" ≠ compute_similarity "rs2pq3rs" "pq1rs" := by
  constructor
  · decide
  · have h1 : smMatches "pq1rs".data "rs2pq3rs".data = 4 := by decide
    have h2 : smMatches "rs2pq3rs".data "pq1rs".data = 2 := by decide
    have hl1 : "pq1rs".data.length = 5 := by decide
    have hl2 : "rs2pq3rs".data.length = 8 := by decide
    unfold compute_similarity smScore
    rw [h1, h2, hl1, hl2]
    norm_num

/-- Witness for C4 at concrete inputs. -/
theorem similarity_bounds_and_identity_witness :
    compute_similarity "" "abc" = 0 ∧ compute_similarity "hello" "hello" = 1 := by
  constructor
  · exact (similarity_bounds_and_identity "" "abc").2.2.1 rfl (by decide)
  · exact (similarity_bounds_and_identity "hello" "hello").2.2.2 rfl (by decide)

/-! ## Text cleaning and `scrape_details` page construction -/

/-- Python regex `\s` / `str.strip()` whitespace, for the ASCII range. -/
def isSpaceCh (c : Char) : Bool :=
  c == ' ' || c == '\t' || c == '\n' || c == '\r' || c == '\x0b' || c == '\x0c'

/-- Worker for `collapseWs`: the flag records whether we are inside a
whitespace run whose single replacement space was already emitted. -/
def collapseWsAux : Bool → List Char → List Char
  | _, [] => []
  | inRun, c :: cs =>
    if isSpaceCh c then
      if inRun then collapseWsAux true cs else ' ' :: collapseWsAux true cs
    else c :: collapseWsAux false cs

/-- Model of `re.sub(r'\s+', ' ', text)`: each maximal whitespace run becomes one space. -/
def collapseWs (l : List Char) : List Char :=
  collapseWsAux false l

/-- Model of `str.strip()`: drop whitespace from both ends. -/
def stripWs (l : List Char) : List Char :=
  ((l.dropWhile isSpaceCh).reverse.dropWhile isSpaceCh).reverse

/-- Model of `re.sub(r'\s+', ' ', text).strip()`, the cleaning applied to
`soup.get_text(...)` in `scrape_details` and `scrape_text`. -/
def cleanText (s : String) : String :=
  ⟨stripWs (collapseWs s.data)⟩

/-- Model of `round(x, 8)`, as exact rounding to a multiple of `1e-8` (Mathlib
`round`, which rounds half up; Python's float banker's rounding differs
only on exact ties, which no claim depends on). -/
def round8 (x : ℚ) : ℚ :=
  ((round (x * 100000000) : ℤ) : ℚ) / 100000000

/-- The result dictionary of `scrape_details`. -/
structure PageDetail where
  title : String
  url : String
  content : String
  score : ℚ
  raw_content : String
deriving DecidableEq, Repr

/-- The non-empty-HTML branch of `scrape_details`: `titleStr` is
`soup.title.string` (absent when there is no title element or it has no
string), `text` is `soup.get_text(separator=' ', strip=True)` — the HTML
parser is an external collaborator, so its two outputs are taken as
inputs here. -/
def buildDetail (query url : String) (titleStr : Option String) (text : String) : PageDetail :=
  let cleaned := stripWs (collapseWs text.data)
  { title := match titleStr with
      | some t => ⟨stripWs t.data⟩
      | none => ""
    url := url
    content := ⟨if 200 < cleaned.length then cleaned.take 200 ++ "...".data else cleaned⟩
    score := round8 (if query = "" then 0 else compute_similarity query ⟨cleaned⟩)
    raw_content := ⟨cleaned⟩ }

/-- Claim C5: the `content` field is exactly the first 200 characters of
the whitespace-collapsed cleaned text followed by the `"..."` marker when
that text is longer than 200 characters, and the whole cleaned text
otherwise. -/
theorem snippet_truncation (query url : String) (titleStr : Option String) (text : String) :
    ((cleanText text).length ≤ 200 →
      (buildDetail query url titleStr text).content = cleanText text) ∧
    (200 < (cleanText text).length →
      (buildDetail query url titleStr text).content
        = ⟨(cleanText text).data.take 200 ++ "...".data⟩) := by
  constructor
  · intro h
    have hnot : ¬ 200 < (stripWs (collapseWs text.data)).length := by
      simpa [cleanText, String.length] using Nat.not_lt.mpr h
    simp only [buildDetail, hnot, if_false]
    rfl
  · intro h
    have hlt : 200 < (stripWs (collapseWs text.data)).length := by
      simpa [cleanText, String.length] using h
    simp only [buildDetail, hlt, if_true]
    rfl

set_option maxRecDepth 8000 in
/-- Witness for C5: a 250-character cleaned text is truncated to 200
characters plus the marker; a short text is returned whole. -/
theorem snippet_truncation_witness :
    (buildDetail "q" "u" none ⟨List.replicate 250 'a'⟩).content
      = ⟨(cleanText ⟨List.replicate 250 'a'⟩).data.take 200 ++ "...".data⟩ ∧
    (buildDetail "q" "u" none "short text").content = cleanText "short text" := by
  constructor
  · exact (snippet_truncation "q" "u" none ⟨List.replicate 250 'a'⟩).2 (by decide)
  · exact (snippet_truncation "q" "u" none "short text").1 (by decide)

/-! ## `extract_images` -/

/-- Python's substring test `pat in l`. -/
def hasSubstr (pat : List Char) : List Char → Bool
  | [] => pat.isPrefixOf []
  | c :: cs => pat.isPrefixOf (c :: cs) || hasSubstr pat cs

/-- The filter of `extract_images`: the lowercased resolved URL must not
end in `.svg` and must not contain `logo` or `icon`. -/
def allowedImg (u : List Char) : Bool :=
  !(".svg".data.isSuffixOf (u.map Char.toLower))
    && !(hasSubstr "logo".data (u.map Char.toLower))
    && !(hasSubstr "icon".data (u.map Char.toLower))

/-- Model of `extract_images` from `app/scraper.py`.  `srcs` are the `src`
attributes of the page's `<img>` tags in document order (`none` when the
attribute is missing; the empty string is also skipped, matching Python's
`if src:` truthiness); `resolve` is `urljoin(base_url, ·)`.  Keeps the
last 5 qualifying URLs (`images[-5:]`). -/
def extract_images (resolve : List Char → List Char)
    (srcs : List (Option (List Char))) : List (List Char) :=
  let images := srcs.foldl
    (fun acc s =>
      match s with
      | none => acc
      | some [] => acc
      | some sv => if allowedImg (resolve sv) then acc ++ [resolve sv] else acc)
    []
  images.drop (images.length - 5)

theorem extract_images_aux_allowed (resolve : List Char → List Char) :
    ∀ (srcs : List (Option (List Char))) (acc : List (List Char)),
      (∀ u ∈ acc, allowedImg u = true) →
      ∀ u ∈ srcs.foldl
        (fun acc s =>
          match s with
          | none => acc
          | some [] => acc
          | some sv => if allowedImg (resolve sv) then acc ++ [resolve sv] else acc)
        acc, allowedImg u = true := by
  intro srcs
  induction srcs with
  | nil => intro acc hacc u hu; exact hacc u hu
  | cons s ss ih =>
    intro acc hacc u hu
    refine ih _ ?_ u hu
    match s with
    | none => exact hacc
    | some [] => exact hacc
    | some (c :: cs) =>
      by_cases hok : allowedImg (resolve (c :: cs)) = true
      · intro v hv
        simp only [hok, if_true] at hv ⊢
        rcases List.mem_append.mp hv with h | h
        · exact hacc v h
        · rw [List.mem_singleton.mp h]
          exact hok
      · intro v hv
        simp only [Bool.not_eq_true] at hok
        simp only [hok, Bool.false_eq_true, if_false] at hv ⊢
        exact hacc v hv

/-- Claim C6: `extract_images` returns at most 5 URLs, and (checked on
the lowercased resolved URL) none of them ends in `.svg` or contains
`logo` or `icon`. -/
theorem extract_images_spec (resolve : List Char → List Char)
    (srcs : List (Option (List Char))) :
    (extract_images resolve srcs).length ≤ 5 ∧
    ∀ u ∈ extract_images resolve srcs,
      ".svg".data.isSuffixOf (u.map Char.toLower) = false ∧
      hasSubstr "logo".data (u.map Char.toLower) = false ∧
      hasSubstr "icon".data (u.map Char.toLower) = false := by
  constructor
  · unfold extract_images
    rw [List.length_drop]
    omega
  · intro u hu
    have hmem : u ∈ srcs.foldl
        (fun acc s =>
          match s with
          | none => acc
          | some [] => acc
          | some sv => if allowedImg (resolve sv) then acc ++ [resolve sv] else acc)
        [] := by
      exact List.mem_of_mem_drop hu
    have hok := extract_images_aux_allowed resolve srcs [] (by intro v hv; cases hv) u hmem
    unfold allowedImg at hok
    simp only [Bool.and_eq_true, Bool.not_eq_true'] at hok
    exact ⟨hok.1.1, hok.1.2, hok.2⟩

/-- Witness for C6 at a concrete page: three images, one excluded as
`.svg`, one excluded as a `logo`, one kept. -/
theorem extract_images_spec_witness :
    ".svg".data.isSuffixOf
        (((extract_images (fun l => 'h' :: l)
            [some "x.svg".data, some "a-Logo.png".data, some "pic.png".data]).headD [])
          |>.map Char.toLower) = false := by
  have h := (extract_images_spec (fun l => 'h' :: l)
    [some "x.svg".data, some "a-Logo.png".data, some "pic.png".data]).2
    ((extract_images (fun l => 'h' :: l)
      [some "x.svg".data, some "a-Logo.png".data, some "pic.png".data]).headD [])
    (by decide)
  exact h.1

/-! ## `extract_links` -/

/-- The keep condition of `extract_links`:
`link.startswith(domain) and "#" not in link`. -/
def keepLink (dom link : List Char) : Bool :=
  dom.isPrefixOf link && !(link.contains '#')

/-- Python `set.add`: insert only if absent (insertion order retained in
the model; the claims proved below do not depend on iteration order). -/
def insertNew (acc : List (List Char)) (x : List Char) : List (List Char) :=
  if x ∈ acc then acc else acc ++ [x]

/-- The break condition `max_links and len(links) >= max_links`
(`max_links=None` — and, by Python truthiness, `0` — disables the cap). -/
def capHit : Option Nat → Nat → Bool
  | none, _ => false
  | some m, len => decide (m ≠ 0) && decide (m ≤ len)

/-- The anchor loop of `extract_links`.  `timeUp n` abstracts the
wall-clock check `max_time and (time.time() - start_time > max_time)` at
the `n`-th iteration; `resolve` is `urljoin(domain, ·)` applied to the
`href` attribute. -/
def linkLoop (resolve : List Char → List Char) (dom : List Char)
    (maxLinks : Option Nat) (timeUp : Nat → Bool) :
    List (List Char) → Nat → List (List Char) → List (List Char)
  | acc, _, [] => acc
  | acc, n, h :: hs =>
    if capHit maxLinks acc.length || timeUp n then acc
    else
      linkLoop resolve dom maxLinks timeUp
        (if keepLink dom (resolve h) then insertNew acc (resolve h) else acc) (n + 1) hs

/-- Model of `extract_links` over the page's anchor `href`s (the HTML fetch and
parse are upstream; an empty-HTML page contributes an empty `hrefs`). -/
def extract_links (resolve : List Char → List Char) (dom : List Char)
    (maxLinks : Option Nat) (timeUp : Nat → Bool)
    (hrefs : List (List Char)) : List (List Char) :=
  linkLoop resolve dom maxLinks timeUp [] 0 hrefs

theorem linkLoop_invariant (resolve : List Char → List Char) (dom : List Char)
    (maxLinks : Option Nat) (timeUp : Nat → Bool) :
    ∀ (hrefs : List (List Char)) (acc : List (List Char)) (n : Nat),
      acc.Nodup → (∀ l ∈ acc, keepLink dom l = true) →
      (linkLoop resolve dom maxLinks timeUp acc n hrefs).Nodup ∧
      (∀ l ∈ linkLoop resolve dom maxLinks timeUp acc n hrefs, keepLink dom l = true) := by
  intro hrefs
  induction hrefs with
  | nil => intro acc n h1 h2; exact ⟨h1, h2⟩
  | cons h hs ih =>
    intro acc n h1 h2
    unfold linkLoop
    by_cases hstop : (capHit maxLinks acc.length || timeUp n) = true
    · simp only [hstop, if_true]
      exact ⟨h1, h2⟩
    · simp only [hstop, if_false]
      by_cases hkeep : keepLink dom (resolve h) = true
      · simp only [hkeep, if_true]
        apply ih
        · unfold insertNew
          by_cases hin : resolve h ∈ acc
          · simpa [hin] using h1
          · simp only [hin, if_false]
            rw [List.nodup_append]
            exact ⟨h1, List.nodup_singleton _, by simpa using hin⟩
        · intro l hl
          unfold insertNew at hl
          by_cases hin : resolve h ∈ acc
          · exact h2 l (by simpa [hin] using hl)
          · simp only [hin, if_false, List.mem_append, List.mem_singleton] at hl
            rcases hl with hl | rfl
            · exact h2 l hl
            · exact hkeep
      · simp only [hkeep, if_false]
        exact ih acc (n + 1) h1 h2

theorem linkLoop_capped (resolve : List Char → List Char) (dom : List Char)
    (m : Nat) (hm : m ≠ 0) (timeUp : Nat → Bool) :
    ∀ (hrefs : List (List Char)) (acc : List (List Char)) (n : Nat),
      acc.length ≤ m →
      (linkLoop resolve dom (some m) timeUp acc n hrefs).length ≤ m := by
  intro hrefs
  induction hrefs with
  | nil => intro acc n hlen; exact hlen
  | cons h hs ih =>
    intro acc n hlen
    unfold linkLoop
    by_cases hstop : (capHit (some m) acc.length || timeUp n) = true
    · simp only [hstop, if_true]
      exact hlen
    · simp only [hstop, if_false]
      have hsmall : acc.length < m := by
        rcases Bool.or_eq_false_iff.mp (Bool.not_eq_true _ ▸ hstop) with ⟨hcap, _⟩
        unfold capHit at hcap
        simp only [Bool.and_eq_false_iff, decide_eq_false_iff_not] at hcap
        rcases hcap with hcap | hcap
        · exact absurd hm hcap
        · omega
      apply ih
      by_cases hkeep : keepLink dom (resolve h) = true
      · simp only [hkeep, if_true]
        unfold insertNew
        by_cases hin : resolve h ∈ acc
        · simp [hin]; omega
        · simp [hin]; omega
      · rw [Bool.not_eq_true] at hkeep
        simp only [hkeep, Bool.false_eq_true, if_false]
        omega

theorem linkLoop_timeUp (resolve : List Char → List Char) (dom : List Char)
    (maxLinks : Option Nat) (timeUp : Nat → Bool) (n : Nat) (hn : timeUp n = true) :
    ∀ (hrefs : List (List Char)) (acc : List (List Char)),
      linkLoop resolve dom maxLinks timeUp acc n hrefs = acc := by
  intro hrefs acc
  cases hrefs with
  | nil => rfl
  | cons h hs =>
    unfold linkLoop
    simp [hn]

/-- Claim C7: every extracted link starts with the domain prefix and is
fragment-free; the result has no duplicates (set semantics); with a
non-zero `max_links` cap the result never exceeds the cap; and once the
wall-clock budget is exhausted the remaining anchors are ignored — the
links collected so far are returned as a partial result, not an error. -/
theorem extract_links_spec (resolve : List Char → List Char) (dom : List Char)
    (maxLinks : Option Nat) (timeUp : Nat → Bool) (hrefs : List (List Char)) :
    (extract_links resolve dom maxLinks timeUp hrefs).Nodup ∧
    (∀ l ∈ extract_links resolve dom maxLinks timeUp hrefs,
      dom.isPrefixOf l = true ∧ l.contains '#' = false) ∧
    (∀ m, maxLinks = some m → m ≠ 0 →
      (extract_links resolve dom maxLinks timeUp hrefs).length ≤ m) ∧
    (timeUp 0 = true → ∀ hrefs2 : List (List Char),
      extract_links resolve dom maxLinks timeUp hrefs
        = extract_links resolve dom maxLinks timeUp hrefs2) := by
  have hinv := linkLoop_invariant resolve dom maxLinks timeUp hrefs [] 0
    (List.nodup_nil) (by intro l hl; cases hl)
  refine ⟨hinv.1, ?_, ?_, ?_⟩
  · intro l hl
    have hk := hinv.2 l hl
    unfold keepLink at hk
    simp only [Bool.and_eq_true, Bool.not_eq_true'] at hk
    exact hk
  · rintro m rfl hm
    exact linkLoop_capped resolve dom m hm timeUp hrefs [] 0 (by simp)
  · intro h0 hrefs2
    unfold extract_links
    rw [linkLoop_timeUp resolve dom maxLinks timeUp 0 h0 hrefs,
      linkLoop_timeUp resolve dom maxLinks timeUp 0 h0 hrefs2]

/-- Witness for C7 on a concrete page: two identical same-domain anchors
and one external anchor yield exactly one link, with the domain prefix
and no fragment. -/
theorem extract_links_spec_witness :
    ("http://d/".data.isPrefixOf
        ((extract_links id "http://d/".data none (fun _ => false)
          ["http://d/a".data, "http://d/a".data, "http://x/".data]).headD []) = true) ∧
    (extract_links id "http://d/".data (some 1) (fun _ => false)
      ["http://d/a".data, "http://d/a".data, "http://x/".data]).length ≤ 1 := by
  constructor
  · exact ((extract_links_spec id "http://d/".data none (fun _ => false)
      ["http://d/a".data, "http://d/a".data, "http://x/".data]).2.1
      ((extract_links id "http://d/".data none (fun _ => false)
        ["http://d/a".data, "http://d/a".data, "http://x/".data]).headD [])
      (by decide)).1
  · exact (extract_links_spec id "http://d/".data (some 1) (fun _ => false)
      ["http://d/a".data, "http://d/a".data, "http://x/".data]).2.2.1 1 rfl (by decide)

/-! ## The race branch of `get_html` (`browser_enabled = False`)

`get_html` creates the Splash task and the aiohttp-fallback task, then
`asyncio.wait(..., return_when=FIRST_COMPLETED, timeout=12)`: it returns
at the instant the FIRST task completes (or after 12s), cancels every
still-pending task, and scans the `done` set for the first non-empty
result.  A task is modeled as its completion time (seconds) plus the
string it would return; the `done` set is scanned in task-creation order
(Python set order is unspecified; no claim below depends on it, since
ties of completion time are the only case with two done tasks). -/

/-- A strategy task: completion time and the result it would produce. -/
structure TaskRun where
  time : Nat
  result : String
deriving DecidableEq, Repr

/-- The `for task in done` loop body of `get_html`: first truthy result. -/
def firstTruthy : List TaskRun → String
  | [] => ""
  | t :: ts => if t.result = "" then firstTruthy ts else t.result

/-- The race branch of `get_html` over the Splash and fallback tasks. -/
def raceGetHtml (splash fallb : TaskRun) : String :=
  if 12 < min splash.time fallb.time then ""
  else
    firstTruthy
      ((if splash.time = min splash.time fallb.time then [splash] else [])
        ++ (if fallb.time = min splash.time fallb.time then [fallb] else []))

/-- Claim C2 counterexample: Splash completes first (1s) with empty
content while the fallback would return "B" at 2s, well inside the 12s
deadline — yet `get_html` returns empty, because `asyncio.wait` with
`FIRST_COMPLETED` returns on the first *completion*, not the first
non-empty result. -/
theorem race_ignores_late_winner :
    raceGetHtml ⟨1, ""⟩ ⟨2, "B"⟩ = "" ∧
    (⟨2, "B"⟩ : TaskRun).result ≠ "" ∧ (⟨2, "B"⟩ : TaskRun).time ≤ 12 := by
  refine ⟨?_, by decide, by decide⟩
  decide

/-- Claim C2 (amended): the race waits only for the FIRST task
completion (or the 12s deadline): it returns the first non-empty result
among the tasks that completed at that earliest instant, and empty
otherwise.  Consequences proved: past the deadline the result is empty;
a non-empty result is one of the two tasks' results, produced within the
deadline; a strictly later task is cancelled and its would-be result
cannot affect the outcome; if both tasks return empty so does the race. -/
theorem race_first_completed (s f : TaskRun) :
    (12 < min s.time f.time → raceGetHtml s f = "") ∧
    (raceGetHtml s f ≠ "" →
      (raceGetHtml s f = s.result ∨ raceGetHtml s f = f.result) ∧
        min s.time f.time ≤ 12) ∧
    (s.time < f.time → ∀ f' : TaskRun, f'.time = f.time →
      raceGetHtml s f = raceGetHtml s f') ∧
    (f.time < s.time → ∀ s' : TaskRun, s'.time = s.time →
      raceGetHtml s f = raceGetHtml s' f) ∧
    (s.result = "" → f.result = "" → raceGetHtml s f = "") := by
  have hone : ∀ t : TaskRun, firstTruthy [t]
      = if t.result = "" then "" else t.result := fun t => rfl
  have htwo : ∀ t u : TaskRun, firstTruthy [t, u]
      = if t.result = "" then (if u.result = "" then "" else u.result)
        else t.result := fun t u => rfl
  refine ⟨?_, ?_, ?_, ?_, ?_⟩
  · intro h
    unfold raceGetHtml
    rw [if_pos h]
  · intro h
    unfold raceGetHtml at h ⊢
    by_cases hd : 12 < min s.time f.time
    · rw [if_pos hd] at h
      exact absurd rfl h
    · rw [if_neg hd] at h ⊢
      refine ⟨?_, Nat.not_lt.mp hd⟩
      by_cases hs : s.time = min s.time f.time
      · by_cases hf : f.time = min s.time f.time
        · rw [if_pos hs, if_pos hf] at h ⊢
          rw [show ([s] ++ [f]) = [s, f] from rfl, htwo] at h ⊢
          by_cases he : s.result = ""
          · rw [if_pos he] at h ⊢
            by_cases he2 : f.result = ""
            · rw [if_pos he2] at h
              exact absurd rfl h
            · rw [if_neg he2] at h ⊢
              exact Or.inr rfl
          · rw [if_neg he] at h ⊢
            exact Or.inl rfl
        · rw [if_pos hs, if_neg hf] at h ⊢
          rw [show ([s] ++ ([] : List TaskRun)) = [s] from rfl, hone] at h ⊢
          by_cases he : s.result = ""
          · rw [if_pos he] at h
            exact absurd rfl h
          · rw [if_neg he] at h ⊢
            exact Or.inl rfl
      · by_cases hf : f.time = min s.time f.time
        · rw [if_neg hs, if_pos hf] at h ⊢
          rw [show (([] : List TaskRun) ++ [f]) = [f] from rfl, hone] at h ⊢
          by_cases he : f.result = ""
          · rw [if_pos he] at h
            exact absurd rfl h
          · rw [if_neg he] at h ⊢
            exact Or.inr rfl
        · exfalso
          rcases Nat.le_total s.time f.time with hle | hle
          · exact hs (Nat.min_eq_left hle).symm
          · exact hf (Nat.min_eq_right hle).symm
  · intro hlt f' hft
    unfold raceGetHtml
    rw [hft]
    have hneg : ¬ (f.time = min s.time f.time) := by
      rw [Nat.min_eq_left (Nat.le_of_lt hlt)]
      omega
    rw [if_neg hneg]
    rw [if_neg hneg]
  · intro hlt s' hst
    unfold raceGetHtml
    rw [hst]
    have hneg : ¬ (s.time = min s.time f.time) := by
      rw [Nat.min_eq_right (Nat.le_of_lt hlt)]
      omega
    rw [if_neg hneg]
    rw [if_neg hneg]
  · intro hs0 hf0
    unfold raceGetHtml
    by_cases hd : 12 < min s.time f.time
    · rw [if_pos hd]
    · rw [if_neg hd]
      by_cases hs : s.time = min s.time f.time
      · by_cases hf : f.time = min s.time f.time
        · rw [if_pos hs, if_pos hf, show ([s] ++ [f]) = [s, f] from rfl, htwo,
            if_pos hs0, if_pos hf0]
        · rw [if_pos hs, if_neg hf,
            show ([s] ++ ([] : List TaskRun)) = [s] from rfl, hone, if_pos hs0]
      · by_cases hf : f.time = min s.time f.time
        · rw [if_neg hs, if_pos hf,
            show (([] : List TaskRun) ++ [f]) = [f] from rfl, hone, if_pos hf0]
        · rw [if_neg hs, if_neg hf]
          rfl

/-- Witness for C2 on the spec's own example (A at 1s, B at 5s): the
result is "A", B is cancelled, and B's would-be value is irrelevant. -/
theorem race_first_completed_witness :
    raceGetHtml ⟨1, "A"⟩ ⟨5, "B"⟩ = "A" ∧
    raceGetHtml ⟨1, "A"⟩ ⟨5, "B"⟩ = raceGetHtml ⟨1, "A"⟩ ⟨5, "ZZZ"⟩ ∧
    raceGetHtml ⟨13, ""⟩ ⟨14, ""⟩ = "" := by
  refine ⟨by decide, ?_, ?_⟩
  · exact (race_first_completed ⟨1, "A"⟩ ⟨5, "B"⟩).2.2.1 (by decide) ⟨5, "ZZZ"⟩ rfl
  · exact (race_first_completed ⟨13, ""⟩ ⟨14, ""⟩).1 (by decide)

/-! ## `scrape_details` with cache state and strategy instrumentation

The external pieces are parameters: `selenHtml` is what the Selenium
strategy would return for the url, `splash`/`fallb` are the two race
tasks, and `titleStr`/`text` are the parser's outputs on the fetched
HTML.  The Selenium invocation count is returned so that the self-heal
claim (C1) can be stated: in the code, `get_html` uses Selenium exactly
when `browser_enabled` and there is no retry path of any kind. -/

/-- Model of `get_html`, returning the HTML and how many times Selenium ran. -/
def get_html_selCount (browser : Bool) (selenHtml : String)
    (splash fallb : TaskRun) : String × Nat :=
  if browser then (selenHtml, 1) else (raceGetHtml splash fallb, 0)

/-- The all-defaults dictionary returned by `scrape_details` on empty HTML. -/
def defaultDetail (url : String) : PageDetail :=
  { title := "", url := url, content := "", score := 0, raw_content := "" }

/-- Model of `scrape_details`: check the cache; on miss fetch; on empty HTML
return (but do not cache) the default detail; otherwise build the detail
and cache it.  Returns the detail, the updated cache, and the Selenium
invocation count. -/
def scrape_details_run (browser : Bool) (selenHtml : String) (splash fallb : TaskRun)
    (query url : String) (titleStr : Option String) (text : String)
    (c : Cache PageDetail) (now : Nat) : (PageDetail × Cache PageDetail) × Nat :=
  match c.get url now with
  | (some d, c1) => ((d, c1), 0)
  | (none, c1) =>
    if (get_html_selCount browser selenHtml splash fallb).1 = "" then
      ((defaultDetail url, c1), (get_html_selCount browser selenHtml splash fallb).2)
    else
      ((buildDetail query url titleStr text,
        c1.set url (buildDetail query url titleStr text) now),
       (get_html_selCount browser selenHtml splash fallb).2)

/-- Claim C1 counterexample: `browser_enabled=False`, Splash wins the
race with HTML `"x"` whose extracted text is empty — the spec's
self-heal retry would now invoke Selenium exactly once, but the code has
no such path: Selenium runs 0 times, and the empty-text detail is built
as-is. -/
theorem no_selfheal_retry_cex :
    (scrape_details_run false "rendered" ⟨1, "x"⟩ ⟨2, "y"⟩ "q" "u" none ""
      ({ entries := [], expiry := 60 } : Cache PageDetail) 0).2 = 0 ∧
    raceGetHtml ⟨1, "x"⟩ ⟨2, "y"⟩ = "x" ∧
    cleanText "" = "" ∧ (0 : Nat) ≠ 1 := by
  refine ⟨?_, by decide, by decide, by decide⟩
  rfl

/-- Claim C1 (amended): there is no self-heal retry.  On a cache miss
`scrape_details` performs exactly one `get_html`; Selenium is invoked
exactly once when `browser_enabled` is set and never otherwise —
independent of whether the HTML's extracted text is empty. -/
theorem no_selfheal_retry (browser : Bool) (selenHtml : String) (splash fallb : TaskRun)
    (query url : String) (titleStr : Option String) (text : String)
    (c : Cache PageDetail) (now : Nat) (hmiss : (c.get url now).1 = none) :
    (scrape_details_run browser selenHtml splash fallb query url titleStr text c now).2
      = (if browser then 1 else 0) := by
  unfold scrape_details_run
  rcases hc : c.get url now with ⟨o, c1⟩
  have ho : o = none := by
    have := hmiss
    rw [hc] at this
    exact this
  subst ho
  by_cases hh : (get_html_selCount browser selenHtml splash fallb).1 = ""
  · simp only [hc, hh, if_true]
    unfold get_html_selCount
    cases browser <;> rfl
  · simp only [hc, hh, if_false]
    unfold get_html_selCount
    cases browser <;> rfl

/-- Witness for C1 on a concrete miss in each mode. -/
theorem no_selfheal_retry_witness :
    (scrape_details_run true "html" ⟨1, ""⟩ ⟨2, ""⟩ "q" "u" none "body"
      ({ entries := [], expiry := 60 } : Cache PageDetail) 0).2 = 1 ∧
    (scrape_details_run false "html" ⟨1, "h"⟩ ⟨2, ""⟩ "q" "u" none "body"
      ({ entries := [], expiry := 60 } : Cache PageDetail) 0).2 = 0 := by
  constructor
  · exact no_selfheal_retry true "html" ⟨1, ""⟩ ⟨2, ""⟩ "q" "u" none "body"
      { entries := [], expiry := 60 } 0 rfl
  · exact no_selfheal_retry false "html" ⟨1, "h"⟩ ⟨2, ""⟩ "q" "u" none "body"
      { entries := [], expiry := 60 } 0 rfl

/-- Claim C9 counterexample: on a miss with empty fetched HTML the
default PageDetail is returned but NOT stored — the cache afterwards
still has no entry for the url, so the immediate second call the claim
promises to be a cache hit is another miss. -/
theorem empty_detail_not_cached_cex :
    ((scrape_details_run false "" ⟨1, ""⟩ ⟨2, ""⟩ "q" "u" none "t"
        ({ entries := [], expiry := 60 } : Cache PageDetail) 0).1.2).lookup "u" = none ∧
    (scrape_details_run false "" ⟨1, ""⟩ ⟨2, ""⟩ "q" "u" none "t"
        ({ entries := [], expiry := 60 } : Cache PageDetail) 0).1.1
      = defaultDetail "u" := by
  constructor
  · rfl
  · rfl

/-- Claim C9 (amended): on a cache miss where the fetch returns empty
HTML, `scrape_details` builds the PageDetail with empty/zero fields (its
`url` field carries the url) and returns it WITHOUT caching it: the
returned cache has no entry for the url, so a second call within the TTL
is again a miss that re-runs the fetch. -/
theorem empty_detail_not_cached (browser : Bool) (selenHtml : String)
    (splash fallb : TaskRun) (query url : String) (titleStr : Option String)
    (text : String) (c : Cache PageDetail) (now : Nat)
    (hmiss : (c.get url now).1 = none)
    (hempty : (get_html_selCount browser selenHtml splash fallb).1 = "") :
    (scrape_details_run browser selenHtml splash fallb query url titleStr text c now).1.1
      = defaultDetail url ∧
    Cache.lookup
      ((scrape_details_run browser selenHtml splash fallb query url titleStr text c now).1.2)
      url = none := by
  unfold scrape_details_run
  rcases hc : c.get url now with ⟨o, c1⟩
  have ho : o = none := by
    have := hmiss
    rw [hc] at this
    exact this
  subst ho
  simp only [hc, hempty, if_true]
  constructor
  · trivial
  · have := Cache.lookup_after_miss c url now hmiss
    rw [hc] at this
    exact this

/-- Witness for C9: a concrete miss with an empty race result. -/
theorem empty_detail_not_cached_witness :
    (scrape_details_run false "" ⟨1, ""⟩ ⟨3, ""⟩ "q" "w" none "t"
        ({ entries := [], expiry := 60 } : Cache PageDetail) 0).1.1
      = defaultDetail "w" := by
  exact (empty_detail_not_cached false "" ⟨1, ""⟩ ⟨3, ""⟩ "q" "w" none "t"
    { entries := [], expiry := 60 } 0 rfl (by decide)).1

/-! ## `scrape` and the `/scrape` endpoint

`scrape` fetches the seed page, builds the error dictionary when that
fetch is empty, otherwise extracts images from the fetched HTML and then
calls `extract_links(url, url)` — which performs its OWN `get_html(url)`.
The model threads a log of the urls passed to `get_html`, covering the
span from the recorded start time up to the per-link fan-out (the
fan-out's own fetches happen afterwards and go to the discovered links).
The external fetch/parse collaborators are the `ParseEnv` fields. -/

/-- External collaborators of `scrape`: the settled `get_html` result per
url, and the BeautifulSoup/urljoin outputs on fetched HTML. -/
structure ParseEnv where
  fetch : String → String
  anchorsOf : String → List (List Char)
  imgSrcsOf : String → List (Option (List Char))
  titleOf : String → Option String
  textOf : String → String
  resolveFrom : String → List Char → List Char

/-- Model of `get_html` at the scrape level, appending the url to the fetch log. -/
def get_html_log (env : ParseEnv) (url : String) (log : List String) :
    String × List String :=
  (env.fetch url, log ++ [url])

/-- Model of `extract_links` as called by `scrape` (no caps): it re-fetches the
page url before parsing anchors. -/
def extract_links_log (env : ParseEnv) (url dom : String) (log : List String) :
    List (List Char) × List String :=
  let r := get_html_log env url log
  if r.1 = "" then ([], r.2)
  else (extract_links (env.resolveFrom dom) dom.data none (fun _ => false)
    (env.anchorsOf r.1), r.2)

/-- A fan-out `scrape_details` call for one discovered link (each link is
new to the per-request cache, so it takes the miss path). -/
def detailOf (env : ParseEnv) (query link : String) : PageDetail :=
  if env.fetch link = "" then defaultDetail link
  else buildDetail query link (env.titleOf (env.fetch link)) (env.textOf (env.fetch link))

/-- The per-url result of `scrape`: either the error dictionary or the
`{query, images, results, response_time}` dictionary (`response_time`,
wall-clock seconds, is not modeled). -/
inductive ScrapeOutcome where
  | failed (msg : String)
  | ok (query : String) (images : List (List Char)) (results : List PageDetail)
deriving DecidableEq

/-- Model of `WebScraper.scrape`, returning the outcome and the fetch log up to
the fan-out. -/
def scrape_log (env : ParseEnv) (query : String) (incImages : Bool) (url : String) :
    ScrapeOutcome × List String :=
  let r1 := get_html_log env url []
  if r1.1 = "" then
    (.failed ("Unable to retrieve main page content for " ++ url), r1.2)
  else
    let images := if incImages
      then extract_images (env.resolveFrom url) (env.imgSrcsOf r1.1) else []
    let r2 := extract_links_log env url url r1.2
    (.ok query images (r2.1.map (fun l => detailOf env query ⟨l⟩)), r2.2)

/-- The `/scrape` endpoint body (`app/main.py`): one fresh `WebScraper`
per url, results gathered in order. -/
def scrape_urls (env : ParseEnv) (query : String) (incImages : Bool)
    (urls : List String) : List ScrapeOutcome :=
  urls.map (fun u => (scrape_log env query incImages u).1)

/-- Claim C8: when every strategy returns empty for the seed page,
`scrape` returns the data-level error dictionary whose message names the
url — no results/images/query/response_time fields exist on that
constructor — and the other urls of a batch request are each processed
independently, unaffected by the failure. -/
theorem seed_failure_error_result (env : ParseEnv) (query : String) (inc : Bool)
    (url : String) (h : env.fetch url = "") :
    (scrape_log env query inc url).1
      = .failed ("Unable to retrieve main page content for " ++ url) ∧
    url.data.IsSuffix ("Unable to retrieve main page content for " ++ url).data ∧
    (∀ us1 us2 : List String,
      scrape_urls env query inc (us1 ++ url :: us2)
        = scrape_urls env query inc us1
          ++ (scrape_log env query inc url).1 :: scrape_urls env query inc us2) := by
  refine ⟨?_, ?_, ?_⟩
  · unfold scrape_log get_html_log
    simp only [h, if_true]
  · rw [String.data_append]
    exact List.suffix_append _ _
  · intro us1 us2
    unfold scrape_urls
    rw [List.map_append, List.map_cons]

/-- Witness for C8: a concrete always-empty fetch environment. -/
theorem seed_failure_error_result_witness :
    (scrape_log
        { fetch := fun _ => "", anchorsOf := fun _ => [], imgSrcsOf := fun _ => [],
          titleOf := fun _ => none, textOf := fun _ => "",
          resolveFrom := fun _ l => l } "q" false "http://u/").1
      = .failed ("Unable to retrieve main page content for " ++ "http://u/") := by
  exact (seed_failure_error_result
    { fetch := fun _ => "", anchorsOf := fun _ => [], imgSrcsOf := fun _ => [],
      titleOf := fun _ => none, textOf := fun _ => "",
      resolveFrom := fun _ l => l } "q" false "http://u/" rfl).1

/-- Claim C10 counterexample: with a fetch that always returns `"x"` and
a page with no anchors, one `scrape` of seed `"u"` logs TWO `get_html`
calls for `"u"` before the fan-out — the direct one plus the re-fetch
inside `extract_links` — not one. -/
theorem seed_fetched_twice_cex :
    (scrape_log
        { fetch := fun _ => "x", anchorsOf := fun _ => [], imgSrcsOf := fun _ => [],
          titleOf := fun _ => none, textOf := fun _ => "",
          resolveFrom := fun _ l => l } "q" false "u").2 = ["u", "u"] ∧
    ¬ ((scrape_log
        { fetch := fun _ => "x", anchorsOf := fun _ => [], imgSrcsOf := fun _ => [],
          titleOf := fun _ => none, textOf := fun _ => "",
          resolveFrom := fun _ l => l } "q" false "u").2.count "u" = 1) := by
  constructor
  · rfl
  · intro hc
    have : (["u", "u"] : List String).count "u" = 1 := by
      exact (by rfl : (scrape_log
        { fetch := fun _ => "x", anchorsOf := fun _ => [], imgSrcsOf := fun _ => [],
          titleOf := fun _ => none, textOf := fun _ => "",
          resolveFrom := fun _ l => l } "q" false "u").2 = ["u", "u"]) ▸ hc
    simp [List.count_cons] at this

/-- Claim C10 (amended): during one `scrape` of a seed url whose fetch
succeeds, the seed is fetched exactly TWICE before the per-link fan-out:
once directly by `scrape` (that HTML is the one handed to image
extraction) and once more inside `extract_links`, which re-fetches the
url instead of receiving the already-fetched HTML. -/
theorem seed_fetch_log (env : ParseEnv) (query : String) (inc : Bool) (url : String)
    (h : env.fetch url ≠ "") :
    (scrape_log env query inc url).2 = [url, url] := by
  unfold scrape_log get_html_log extract_links_log get_html_log
  simp [h]

/-- Witness for C10 with a concrete succeeding fetch. -/
theorem seed_fetch_log_witness :
    (scrape_log
        { fetch := fun _ => "x", anchorsOf := fun _ => [], imgSrcsOf := fun _ => [],
          titleOf := fun _ => none, textOf := fun _ => "",
          resolveFrom := fun _ l => l } "q" true "http://u/").2
      = ["http://u/", "http://u/"] := by
  exact seed_fetch_log
    { fetch := fun _ => "x", anchorsOf := fun _ => [], imgSrcsOf := fun _ => [],
      titleOf := fun _ => none, textOf := fun _ => "",
      resolveFrom := fun _ l => l } "q" true "http://u/" (by decide)

end ScrapeMaster
